import Mathlib

/-!
Shallow embedding of pysent (src/main.py): a plain-text slide presenter.
Python strings are modelled as lists of characters; the Python floats that
arise from padding arithmetic are modelled as exact rationals; pygame's
font-metric function is an abstract parameter of the text-fitting search.
-/

/-- Python strings, modelled as lists of characters. -/
abbrev PyStr := List Char

/-- Python `s.startswith(pre)`. -/
def pyStartsWith (s pre : PyStr) : Bool := pre.isPrefixOf s

/-- Python `s.removeprefix(pre)`: drop one leading occurrence of `pre` when present. -/
def pyDropPre (s pre : PyStr) : PyStr := if pre.isPrefixOf s then s.drop pre.length else s

/-- Scanner for Python `s.split(sep)` with a non-empty separator: leftmost
match, separator consumed, `acc` is the current piece reversed.  `fuel`
bounds the recursion; every step consumes at least one character of the
input, so any `fuel ≥ length` yields Python's exact semantics. -/
def pySplitSepAux (sep : PyStr) : Nat → PyStr → PyStr → List PyStr
  | _, acc, [] => [acc.reverse]
  | 0, acc, rest => [acc.reverse ++ rest]
  | fuel+1, acc, c :: rest =>
    if sep.isPrefixOf (c :: rest) then
      acc.reverse :: pySplitSepAux sep fuel [] ((c :: rest).drop sep.length)
    else
      pySplitSepAux sep fuel (c :: acc) rest

/-- Python `s.split(sep)` for a non-empty separator `sep`. -/
def pySplitSep (s sep : PyStr) : List PyStr := pySplitSepAux sep (s.length + 1) [] s

/-- The whitespace set of Python `str.split()` with no arguments. -/
def pyIsSpace (c : Char) : Bool :=
  c = ' ' || c = '\t' || c = '\n' || c = '\r' || c = '\x0b' || c = '\x0c'

/-- Scanner for Python `s.split()`: `acc` holds the current token reversed;
empty tokens (whitespace runs, ends) are not produced. -/
def pySplitWsAux : PyStr → PyStr → List PyStr
  | acc, [] => if acc = [] then [] else [acc.reverse]
  | acc, c :: rest =>
    if pyIsSpace c then
      if acc = [] then pySplitWsAux [] rest else acc.reverse :: pySplitWsAux [] rest
    else
      pySplitWsAux (c :: acc) rest

/-- Python `s.split()` (no separator): the maximal runs of non-whitespace. -/
def pySplitWs (s : PyStr) : List PyStr := pySplitWsAux [] s

/-- Class `Slide` of src/main.py: `_lines` starts `[]`, `_image` starts
`None`.  `set_image` is modelled as recording the image path (the decoding
done by `pygame.image.load` is an external-collaborator effect; the slide
is identified by what it references). -/
structure Slide where
  lines : List PyStr
  image : Option PyStr
  deriving DecidableEq

/-- Result of the content dispatch `Slide.get_content`. -/
inductive SlideContent where
  | image (img : PyStr)
  | text (lines : List PyStr)
  deriving DecidableEq

/-- Python `Slide.get_content` (src/main.py lines 22-26): a set image takes
precedence over the lines (a loaded pygame surface is truthy, `None` is not). -/
def Slide.get_content (s : Slide) : SlideContent :=
  match s.image with
  | some img => SlideContent.image img
  | none => SlideContent.text s.lines

/-- Class `Presentation` of src/main.py: a slide list and the cursor
`_current_slide`, a Python `int`. -/
structure Presentation where
  slides : List Slide
  current : Int
  deriving DecidableEq

/-- Python `Presentation()` constructor: empty slide list, cursor 0. -/
def Presentation.init : Presentation := ⟨[], 0⟩

/-- Python `Presentation.add_slide`: append, cursor untouched. -/
def Presentation.add_slide (p : Presentation) (s : Slide) : Presentation :=
  ⟨p.slides ++ [s], p.current⟩

/-- Python list indexing `l[i]`, negative indices counting from the end;
`none` models an IndexError. -/
def pyIndex {α : Type} (l : List α) (i : Int) : Option α :=
  if i < 0 then
    if 0 ≤ i + l.length then l.get? (i + l.length).toNat else none
  else
    l.get? i.toNat

/-- Python `Presentation.get_current_slide`: `self._slides[self._current_slide]`. -/
def Presentation.get_current_slide (p : Presentation) : Option Slide :=
  pyIndex p.slides p.current

/-- Python `Presentation.next`: `min(current + 1, len(slides) - 1)`. -/
def Presentation.next (p : Presentation) : Presentation :=
  ⟨p.slides, min (p.current + 1) ((p.slides.length : Int) - 1)⟩

/-- Python `Presentation.prev`: `max(current - 1, 0)`. -/
def Presentation.prev (p : Presentation) : Presentation :=
  ⟨p.slides, max (p.current - 1) 0⟩

/-- One iteration of the paragraph loop in `parse` (src/main.py lines 53-69).
`none` models the uncaught IndexError raised by `par.split()[0]` when the
paragraph after the `@` sigil holds no whitespace-delimited token. -/
def parseParagraph (par : PyStr) : Option Slide :=
  if pyStartsWith par ['@'] then
    match pySplitWs (pyDropPre par ['@']) with
    | [] => none
    | image :: _ => some ⟨[], some image⟩
  else
    some ⟨((pySplitSep par ['\n']).filter
        (fun x => !(pyStartsWith x ['#']))).map
        (fun line => pyDropPre line ['\\']), none⟩

/-- The paragraph loop of `parse`: the first failing paragraph aborts the
whole parse (the exception propagates out of the loop). -/
def parseParagraphs : List PyStr → Option (List Slide)
  | [] => some []
  | par :: rest =>
    match parseParagraph par with
    | none => none
    | some slide =>
      match parseParagraphs rest with
      | none => none
      | some slides => some (slide :: slides)

/-- Python `parse` (src/main.py lines 47-71) applied to the text content of
the file: split on blank lines (`"\n\n"`), build one slide per paragraph,
and add them in file order to a fresh presentation (cursor 0). -/
def parse (content : String) : Option Presentation :=
  match parseParagraphs (pySplitSep content.toList ['\n', '\n']) with
  | none => none
  | some slides => some (slides.foldl Presentation.add_slide Presentation.init)

/-- Python `int(x)` on a (here: rational-valued) float: truncation toward zero. -/
def pyInt (q : ℚ) : ℤ := if q < 0 then -⌊-q⌋ else ⌊q⌋

/-- Python `d - 2 * (d * p)`: the padded available length along one screen
dimension (src/main.py lines 84-88 and 123-127). -/
def availableLength (d : Int) (p : ℚ) : ℚ := (d : ℚ) - 2 * ((d : ℚ) * p)

/-- The scaled size chosen by `draw_centered_image_with_padding`
(src/main.py lines 92-99): fit to height when the padded viewport is
relatively wider than the image, else fit to width; the computed dimension
is truncated by `int(...)`, the copied one is kept as is. -/
def imageFitSize (aw ah ar : ℚ) : ℚ × ℚ :=
  if aw / ah > ar then ((pyInt (ah * ar) : ℚ), ah) else (aw, (pyInt (aw / ar) : ℚ))

/-- Geometry computed by `draw_centered_image_with_padding` (src/main.py
lines 74-110) for an image of natural size `ow × oh` on a `W × H` screen:
the pre-scale size `(new_width, new_height)`, the scaled surface size
(`pygame.transform.scale` truncates fractional sizes), and the blit
position `((W - iw) // 2, (H - ih) // 2)` (Python floor division). -/
def draw_centered_image_with_padding (W H : Int) (hp vp : ℚ) (ow oh : Nat) :
    (ℚ × ℚ) × (Int × Int) × (Int × Int) :=
  let aw := availableLength W hp
  let ah := availableLength H vp
  let ar := (ow : ℚ) / (oh : ℚ)
  let nwh := imageFitSize aw ah ar
  let iw := pyInt nwh.1
  let ih := pyInt nwh.2
  (nwh, (iw, ih), ((W - iw).fdiv 2, (H - ih).fdiv 2))

/-- Total block height measured by `draw_centered_text` (src/main.py lines
134-136): the sum of the rendered heights `fh s string` of the lines at font
size `s`, plus 10 units for each of the `len(strings) - 1` gaps (a Python
`int`, so it is `-10` for an empty line list). -/
def totalHeight (fh : Nat → PyStr → Nat) (strings : List PyStr) (s : Nat) : Int :=
  (strings.map (fun str => ((fh s str : Int)))).sum + ((strings.length : Int) - 1) * 10

/-- Python `max` over a nonempty iterable, as a left fold of binary `max`;
`acc` is the maximum seen so far. -/
def maxAux (f : PyStr → Nat) : List PyStr → Nat → Nat
  | [], acc => acc
  | x :: xs, acc => maxAux f xs (max acc (f x))

/-- The `max(font.size(string)[0] for string in strings)` of src/main.py line
137: `none` models the ValueError Python's `max` raises on an empty iterable. -/
def maxLineWidth (fw : Nat → PyStr → Nat) (strings : List PyStr) (s : Nat) : Option Nat :=
  match strings with
  | [] => none
  | x :: xs => some (maxAux (fw s) xs (fw s x))

/-- The measurement step of the fitting loop (src/main.py lines 133-137) at
font size `s`, abstracting pygame's metric functions `fw` (rendered width)
and `fh` (rendered height): `none` models the crash on an empty line list. -/
def textMeasure (fw fh : Nat → PyStr → Nat) (strings : List PyStr) (s : Nat) :
    Option (Int × Nat) :=
  match maxLineWidth fw strings s with
  | none => none
  | some w => some (totalHeight fh strings s, w)

/-- The loop's stopping test (src/main.py line 139): the block at size `s`
overflows the available `aw × ah` box.  The `none` branch of `textMeasure`
(empty line list) never returns to the loop in the source - it raises - so
its value here is immaterial to the theorems, which either restrict to
nonempty line lists or speak about `textMeasure` directly. -/
def overflowsB (fw fh : Nat → PyStr → Nat) (strings : List PyStr) (aw ah : ℚ)
    (s : Nat) : Bool :=
  match textMeasure fw fh strings s with
  | none => true
  | some (th, w) => decide (((th : ℚ)) > ah) || decide (((w : ℚ)) > aw)

/-- The `while True` search of `draw_centered_text` (src/main.py lines
129-142): starting from size `s`, return the first size whose block
overflows.  `fuel` bounds the iteration count; when some size within reach
overflows, its value does not matter (`fontLoop_spec`), and when no size
ever overflows the source loops forever. -/
def fontLoop (ov : Nat → Bool) : Nat → Nat → Nat
  | 0, s => s
  | fuel+1, s => if ov s then s else fontLoop ov fuel (s+1)

/-- The font size selected by `draw_centered_text` (src/main.py lines
129-144): one below the first overflowing size, starting the search at 1. -/
def selectedFontSize (ov : Nat → Bool) (fuel : Nat) : Nat := fontLoop ov fuel 1 - 1

/-- The operations the program performs on a `Presentation` (src/main.py:
`add_slide` during parsing, `next` / `prev` from the key handler). -/
inductive POp where
  | add_slide (s : Slide)
  | next
  | prev
  deriving DecidableEq

/-- Apply one presentation operation. -/
def Presentation.applyOp (p : Presentation) : POp → Presentation
  | POp.add_slide s => p.add_slide s
  | POp.next => p.next
  | POp.prev => p.prev

/-- Apply a sequence of presentation operations in order. -/
def Presentation.applyOps (p : Presentation) (ops : List POp) : Presentation :=
  ops.foldl Presentation.applyOp p

/-- On nonnegative arguments, Python truncation `int(x)` is the floor. -/
theorem pyInt_eq_floor {q : ℚ} (h : 0 ≤ q) : pyInt q = ⌊q⌋ := by
  rw [pyInt, if_neg (not_lt.mpr h)]

/-- Python `int(x)` of an integer value is that integer. -/
theorem pyInt_intCast (n : Int) : pyInt ((n : ℚ)) = n := by
  by_cases h : (n : ℚ) < 0
  · rw [pyInt, if_pos h, ← Int.cast_neg, Int.floor_intCast, neg_neg]
  · rw [pyInt, if_neg h, Int.floor_intCast]

/-- Evaluation rule for Python `int(x)` on a nonnegative value. -/
theorem pyInt_eq_of {q : ℚ} (a : Int) (h0 : 0 ≤ q) (h1 : (a : ℚ) ≤ q)
    (h2 : q < a + 1) : pyInt q = a := by
  rw [pyInt_eq_floor h0, Int.floor_eq_iff]
  exact ⟨h1, h2⟩

/-- Bounds of Python `int(x)` on a nonnegative value. -/
theorem pyInt_bounds {q : ℚ} (h : 0 ≤ q) : q - 1 < (pyInt q : ℚ) ∧ (pyInt q : ℚ) ≤ q := by
  rw [pyInt_eq_floor h]
  exact ⟨Int.sub_one_lt_floor q, Int.floor_le q⟩

/-- The search returns the first overflowing size at or after its start,
provided one is within fuel reach. -/
theorem fontLoop_spec (ov : Nat → Bool) :
    ∀ (fuel s b : Nat), s ≤ b → ov b = true → b < s + fuel →
      ov (fontLoop ov fuel s) = true ∧ s ≤ fontLoop ov fuel s ∧ fontLoop ov fuel s ≤ b ∧
        ∀ j, s ≤ j → j < fontLoop ov fuel s → ov j = false := by
  intro fuel
  induction fuel with
  | zero => intro s b hsb hb h; omega
  | succ fuel ih =>
    intro s b hsb hb h
    by_cases hov : ov s = true
    · rw [show fontLoop ov (fuel+1) s = s from by simp [fontLoop, hov]]
      exact ⟨hov, le_refl s, hsb, fun j hj1 hj2 => absurd (lt_of_le_of_lt hj1 hj2) (lt_irrefl s)⟩
    · have hovf : ov s = false := by
        cases hc : ov s
        · rfl
        · exact absurd hc hov
      have hs : s ≠ b := fun he => hov (he ▸ hb)
      obtain ⟨h1, h2, h3, h4⟩ := ih (s+1) b (by omega) hb (by omega)
      rw [show fontLoop ov (fuel+1) s = fontLoop ov fuel (s+1) from by simp [fontLoop, hov]]
      refine ⟨h1, by omega, h3, ?_⟩
      intro j hj1 hj2
      rcases Nat.eq_or_lt_of_le hj1 with he | hlt
      · rw [← he]; exact hovf
      · exact h4 j hlt hj2

/-- Sums of pointwise-dominated integer maps are dominated. -/
theorem sum_map_le {l : List PyStr} {f g : PyStr → Int} (h : ∀ x ∈ l, f x ≤ g x) :
    (l.map f).sum ≤ (l.map g).sum := by
  induction l with
  | nil => simp
  | cons x xs ih =>
    simp only [List.map_cons, List.sum_cons]
    exact add_le_add (h x (by simp)) (ih fun y hy => h y (by simp [hy]))

/-- The running maximum is monotone in both the function and the accumulator. -/
theorem maxAux_mono {f g : PyStr → Nat} {l : List PyStr}
    (hfg : ∀ x ∈ l, f x ≤ g x) : ∀ {a b : Nat}, a ≤ b → maxAux f l a ≤ maxAux g l b := by
  induction l with
  | nil => intro a b hab; simpa [maxAux] using hab
  | cons x xs ih =>
    intro a b hab
    rw [show maxAux f (x :: xs) a = maxAux f xs (max a (f x)) from rfl,
      show maxAux g (x :: xs) b = maxAux g xs (max b (g x)) from rfl]
    exact ih (fun y hy => hfg y (by simp [hy])) (max_le_max hab (hfg x (by simp)))

/-- The measured block height is monotone in the font size when the metric is. -/
theorem totalHeight_mono {fh : Nat → PyStr → Nat}
    (hh : ∀ str s t, s ≤ t → fh s str ≤ fh t str) (strings : List PyStr)
    {s t : Nat} (hst : s ≤ t) : totalHeight fh strings s ≤ totalHeight fh strings t := by
  unfold totalHeight
  have hs : (strings.map (fun str => ((fh s str : Int)))).sum ≤
      (strings.map (fun str => ((fh t str : Int)))).sum :=
    sum_map_le (fun x _ => by exact_mod_cast hh x s t hst)
  omega

/-- Overflow is upward closed in the font size under monotone metrics. -/
theorem overflowsB_mono {fw fh : Nat → PyStr → Nat}
    (hw : ∀ str s t, s ≤ t → fw s str ≤ fw t str)
    (hh : ∀ str s t, s ≤ t → fh s str ≤ fh t str)
    (strings : List PyStr) (aw ah : ℚ) {s t : Nat} (hst : s ≤ t)
    (h : overflowsB fw fh strings aw ah s = true) :
    overflowsB fw fh strings aw ah t = true := by
  cases strings with
  | nil => rfl
  | cons x xs =>
    have hred : ∀ u, overflowsB fw fh (x :: xs) aw ah u =
        (decide (((totalHeight fh (x :: xs) u : ℚ)) > ah) ||
          decide (((maxAux (fw u) xs (fw u x) : ℚ)) > aw)) := fun u => rfl
    rw [hred] at h
    rw [hred]
    rw [Bool.or_eq_true, decide_eq_true_iff, decide_eq_true_iff] at h ⊢
    rcases h with h | h
    · left
      have hc : ((totalHeight fh (x :: xs) s : ℚ)) ≤ ((totalHeight fh (x :: xs) t : ℚ)) := by
        exact_mod_cast totalHeight_mono hh (x :: xs) hst
      exact lt_of_lt_of_le h hc
    · right
      have hm : maxAux (fw s) xs (fw s x) ≤ maxAux (fw t) xs (fw t x) :=
        maxAux_mono (fun y _ => hw y s t hst) (hw x s t hst)
      have hc : ((maxAux (fw s) xs (fw s x) : ℚ)) ≤ ((maxAux (fw t) xs (fw t x) : ℚ)) := by
        exact_mod_cast hm
      exact lt_of_lt_of_le h hc

/-- The padded available length is positive for a positive dimension and a
padding fraction below one half. -/
theorem availableLength_pos {d : Int} {p : ℚ} (hd : 0 < d)
    (hp : p < 1/2) : 0 < availableLength d p := by
  rw [availableLength]
  have hd' : (0:ℚ) < (d:ℚ) := by exact_mod_cast hd
  have h2 : (0:ℚ) < 1 - 2*p := by linarith
  nlinarith [mul_pos hd' h2]

/-- Branch analysis of the image fit: the chosen size never exceeds the
available box, and the truncated dimension is within one unit of the exact
aspect-matching value. -/
theorem imageFitSize_spec (aw ah ar : ℚ) (haw : 0 < aw) (hah : 0 < ah)
    (har : 0 < ar) :
    (imageFitSize aw ah ar).1 ≤ aw ∧ (imageFitSize aw ah ar).2 ≤ ah ∧
      (((imageFitSize aw ah ar).2 * ar - 1 < (imageFitSize aw ah ar).1 ∧
          (imageFitSize aw ah ar).1 ≤ (imageFitSize aw ah ar).2 * ar) ∨
        ((imageFitSize aw ah ar).1 / ar - 1 < (imageFitSize aw ah ar).2 ∧
          (imageFitSize aw ah ar).2 ≤ (imageFitSize aw ah ar).1 / ar)) := by
  by_cases hcond : aw / ah > ar
  · rw [imageFitSize, if_pos hcond]
    have h0 : 0 ≤ ah * ar := le_of_lt (mul_pos hah har)
    obtain ⟨hl, hu⟩ := pyInt_bounds h0
    have hbound : ah * ar < aw := by
      rw [gt_iff_lt, lt_div_iff₀ hah] at hcond
      linarith [hcond, mul_comm ah ar]
    exact ⟨le_trans hu (le_of_lt hbound), le_refl ah, Or.inl ⟨hl, hu⟩⟩
  · rw [imageFitSize, if_neg hcond]
    have hdiv0 : 0 ≤ aw / ar := le_of_lt (div_pos haw har)
    obtain ⟨hl, hu⟩ := pyInt_bounds hdiv0
    have hb2 : aw / ar ≤ ah := by
      rw [gt_iff_lt, not_lt, div_le_iff₀ hah] at hcond
      rw [div_le_iff₀ har]
      linarith [hcond, mul_comm ah ar]
    exact ⟨le_refl aw, le_trans hu hb2, Or.inr ⟨hl, hu⟩⟩

/-- Cursor bounds preserved by every operation: the cursor stays in
`[-1, max (N-1) 0]` (it can only be `-1` after `next` on an empty
presentation, since `min(0+1, 0-1) = -1`). -/
theorem applyOps_cursor_bounds (ops : List POp) :
    ∀ p : Presentation,
      -1 ≤ p.current ∧ p.current ≤ max ((p.slides.length : Int) - 1) 0 →
      -1 ≤ (p.applyOps ops).current ∧
        (p.applyOps ops).current ≤ max (((p.applyOps ops).slides.length : Int) - 1) 0 := by
  induction ops with
  | nil => intro p h; exact h
  | cons op rest ih =>
    intro p h
    rw [show p.applyOps (op :: rest) = (p.applyOp op).applyOps rest from rfl]
    refine ih _ ?_
    have hlen : (0 : Int) ≤ (p.slides.length : Int) := Int.ofNat_nonneg _
    cases op with
    | add_slide s =>
      simp only [Presentation.applyOp, Presentation.add_slide, List.length_append,
        List.length_cons, List.length_nil]
      constructor
      · exact h.1
      · have h2 := h.2
        push_cast
        push_cast at h2
        omega
    | next =>
      simp only [Presentation.applyOp, Presentation.next]
      obtain ⟨h1, h2⟩ := h
      omega
    | prev =>
      simp only [Presentation.applyOp, Presentation.prev]
      obtain ⟨h1, h2⟩ := h
      omega

/-- Python indexing succeeds on a nonempty list for any index in
`[-1, length-1]` (a negative index counts from the end). -/
theorem pyIndex_some {α : Type} {l : List α} {i : Int} (h1 : -1 ≤ i)
    (h2 : i ≤ (l.length : Int) - 1) (h3 : l ≠ []) :
    ∃ s, pyIndex l i = some s := by
  have hlen : 0 < l.length := List.length_pos.mpr h3
  have hlen' : (1 : Int) ≤ (l.length : Int) := by exact_mod_cast hlen
  rw [pyIndex]
  by_cases hi : i < 0
  · have hieq : i = -1 := by omega
    subst hieq
    rw [if_pos hi, if_pos (by omega)]
    have hm : ((-1 : Int) + l.length).toNat < l.length := by omega
    exact ⟨l.get ⟨((-1 : Int) + l.length).toNat, hm⟩, List.get?_eq_get hm⟩
  · rw [if_neg hi]
    have hm : i.toNat < l.length := by omega
    exact ⟨l.get ⟨i.toNat, hm⟩, List.get?_eq_get hm⟩

/-- Claim C3: parsing `"hello\nworld\n\n@pic.png extra"` yields exactly two
slides in file order: a text slide with lines `["hello", "world"]`, then an
image slide referencing `"pic.png"`, the first whitespace-delimited token
after the `@` sigil. -/
theorem parse_two_slide_example :
    parse "hello\nworld\n\n@pic.png extra" =
      some ⟨[⟨["hello".toList, "world".toList], none⟩,
             ⟨[], some "pic.png".toList⟩], 0⟩ ∧
    (⟨["hello".toList, "world".toList], none⟩ : Slide).get_content =
      SlideContent.text ["hello".toList, "world".toList] ∧
    (⟨[], some "pic.png".toList⟩ : Slide).get_content =
      SlideContent.image "pic.png".toList := by
  refine ⟨by decide, by decide, by decide⟩

/-- Claim C4: navigation clamps at both ends with no wraparound: `next` sets
the cursor to `min(index+1, N-1)`, `prev` to `max(index-1, 0)`, the initial
cursor is 0; on a 3-slide presentation starting at 0, `prev` leaves it at 0
and three `next` calls leave it at 2. -/
theorem presentation_navigation_clamps :
    (∀ p : Presentation,
      (p.next).current = min (p.current + 1) ((p.slides.length : Int) - 1)) ∧
    (∀ p : Presentation, (p.prev).current = max (p.current - 1) 0) ∧
    Presentation.init.current = 0 ∧
    (∀ s1 s2 s3 : Slide,
      (((Presentation.init.add_slide s1).add_slide s2).add_slide s3).prev.current = 0 ∧
      (((Presentation.init.add_slide s1).add_slide s2).add_slide
        s3).next.next.next.current = 2) :=
  ⟨fun _ => rfl, fun _ => rfl, rfl, fun _ _ _ => ⟨rfl, rfl⟩⟩

/-- Claim C5: a paragraph not beginning with `@` becomes a text slide whose
lines are the paragraph's lines with every line beginning with `#` dropped
and one leading backslash stripped from each remaining line. -/
theorem text_paragraph_lines (par : PyStr) (h : pyStartsWith par ['@'] = false) :
    parseParagraph par = some ⟨((pySplitSep par ['\n']).filter
      (fun x => !(pyStartsWith x ['#']))).map
      (fun line => pyDropPre line ['\\']), none⟩ := by
  rw [parseParagraph, if_neg (by simp [h])]

/-- Witness for C5, covering the spec's two examples: `"#note\nvisible"`
yields lines `["visible"]` and `"\\#literal"` yields lines `["#literal"]`. -/
theorem text_paragraph_lines_witness :
    (pyStartsWith "#note\nvisible".toList ['@'] = false) ∧
    parseParagraph "#note\nvisible".toList = some ⟨["visible".toList], none⟩ ∧
    (pyStartsWith "\\#literal".toList ['@'] = false) ∧
    parseParagraph "\\#literal".toList = some ⟨["#literal".toList], none⟩ :=
  ⟨by decide, (text_paragraph_lines _ (by decide)).trans (by decide),
   by decide, (text_paragraph_lines _ (by decide)).trans (by decide)⟩

/-- Counterexample for C7 as stated: after `next` on the empty presentation
followed by `add_slide`, the slide list is nonempty but the cursor is `-1`,
not a valid index in `[0, N-1]`. -/
theorem cursor_negative_cex :
    ((Presentation.init.applyOps [POp.next, POp.add_slide ⟨[], none⟩]).slides.length = 1) ∧
    ((Presentation.init.applyOps [POp.next, POp.add_slide ⟨[], none⟩]).current = -1) ∧
    ¬(0 ≤ (Presentation.init.applyOps [POp.next, POp.add_slide ⟨[], none⟩]).current) := by
  refine ⟨by decide, by decide, by decide⟩

/-- Claim C7 (amended): after any operation sequence from the initial empty
presentation, the cursor lies in `[-1, N-1]` whenever the slide list is
nonempty (it is `-1` only via `next` on an empty presentation), and since a
Python index of `-1` selects the last element, `get_current_slide` on a
nonempty presentation always succeeds. -/
theorem cursor_invariant_get_current (ops : List POp)
    (hne : (Presentation.init.applyOps ops).slides ≠ []) :
    -1 ≤ (Presentation.init.applyOps ops).current ∧
    (Presentation.init.applyOps ops).current ≤
      ((Presentation.init.applyOps ops).slides.length : Int) - 1 ∧
    ∃ s, (Presentation.init.applyOps ops).get_current_slide = some s := by
  have hb := applyOps_cursor_bounds ops Presentation.init ⟨by decide, by decide⟩
  have hlen : 0 < (Presentation.init.applyOps ops).slides.length :=
    List.length_pos.mpr hne
  have hlen' : (1 : Int) ≤ ((Presentation.init.applyOps ops).slides.length : Int) := by
    exact_mod_cast hlen
  obtain ⟨h1, h2⟩ := hb
  have h2' : (Presentation.init.applyOps ops).current ≤
      ((Presentation.init.applyOps ops).slides.length : Int) - 1 := by omega
  exact ⟨h1, h2', pyIndex_some h1 h2' hne⟩

/-- Witness for C7 (amended) at the one-operation sequence `[add_slide]`. -/
theorem cursor_invariant_get_current_witness :
    ((Presentation.init.applyOps [POp.add_slide ⟨[], none⟩]).slides ≠ []) ∧
    (-1 ≤ (Presentation.init.applyOps [POp.add_slide ⟨[], none⟩]).current ∧
      (Presentation.init.applyOps [POp.add_slide ⟨[], none⟩]).current ≤
        ((Presentation.init.applyOps [POp.add_slide ⟨[], none⟩]).slides.length : Int) - 1 ∧
      ∃ s, (Presentation.init.applyOps [POp.add_slide ⟨[], none⟩]).get_current_slide = some s) :=
  ⟨by decide, cursor_invariant_get_current [POp.add_slide ⟨[], none⟩] (by decide)⟩

/-- Counterexample for C8 as stated: parsing the empty input yields one
slide whose line list is `[""]` - a single empty line, not zero lines. -/
theorem parse_empty_cex :
    parse "" = some ⟨[⟨[[]], none⟩], 0⟩ ∧
    ¬((⟨[[]], none⟩ : Slide).lines.length = 0) := by
  refine ⟨by decide, by decide⟩

/-- Claim C8 (amended): parsing the empty input produces exactly one slide,
a text slide whose line list is the single empty line (splitting the empty
string on blank lines yields one empty paragraph, and splitting that
paragraph on newlines yields one empty line). -/
theorem parse_empty_single_blank_line :
    parse "" = some ⟨[⟨[[]], none⟩], 0⟩ ∧
    (⟨[[]], none⟩ : Slide).get_content = SlideContent.text [[]] := by
  refine ⟨by decide, by decide⟩

/-- Claim C9: a paragraph whose every line begins with `#` parses to a text
slide with an empty line list, that slide is what the render loop fetches
and dispatches as text, and the measurement step of `draw_centered_text` on
an empty line list fails (Python's `max` over an empty iterable). -/
theorem empty_lines_measure_fails :
    parse "#a\n#b" = some ⟨[⟨[], none⟩], 0⟩ ∧
    (Presentation.get_current_slide ⟨[⟨[], none⟩], 0⟩ = some ⟨[], none⟩) ∧
    ((⟨[], none⟩ : Slide).get_content = SlideContent.text []) ∧
    (∀ fw fh : Nat → PyStr → Nat, ∀ s : Nat, textMeasure fw fh [] s = none) :=
  ⟨by decide, by decide, by decide, fun _ _ _ => rfl⟩

/-- Claim C10: an input containing a paragraph that begins with the `@`
sigil but has no whitespace-delimited token after it makes `parse` fail
with an IndexError (modelled by `none`) instead of returning a
presentation. -/
theorem parse_bare_sigil_fails (content : String) (par : PyStr)
    (hmem : par ∈ pySplitSep content.toList ['\n', '\n'])
    (hat : pyStartsWith par ['@'] = true)
    (htok : pySplitWs (pyDropPre par ['@']) = []) :
    parse content = none := by
  have hpp : parseParagraph par = none := by
    rw [parseParagraph, if_pos hat, htok]
  have hall : ∀ l : List PyStr, par ∈ l → parseParagraphs l = none := by
    intro l
    induction l with
    | nil => intro h; cases h
    | cons x xs ih =>
      intro h
      rcases List.mem_cons.mp h with he | hm
      · rw [parseParagraphs, ← he, hpp]
      · rw [parseParagraphs]
        cases hx : parseParagraph x
        · rfl
        · rw [ih hm]
  rw [parse, hall _ hmem]

/-- Witness for C10 at the one-character input `"@"`. -/
theorem parse_bare_sigil_fails_witness :
    (['@'] ∈ pySplitSep "@".toList ['\n', '\n']) ∧
    (pyStartsWith ['@'] ['@'] = true) ∧
    (pySplitWs (pyDropPre ['@'] ['@']) = []) ∧
    parse "@" = none :=
  ⟨by decide, by decide, by decide,
   parse_bare_sigil_fails "@" ['@'] (by decide) (by decide) (by decide)⟩

/-- Counterexample for C1 as stated: two lines on a 100 x 5 viewport with
0.1 paddings.  The inter-line gap alone (10 units) exceeds the available
height (4), so the block overflows at every size - already at size 1 - the
selected size is 0, and the block at the selected size overflows too: the
selected size does not fit.  (The metric functions used, width = height =
font size, are monotone.) -/
theorem selectedFontSize_zero_overflow_cex :
    selectedFontSize (overflowsB (fun s _ => s) (fun s _ => s)
      ["a".toList, "b".toList]
      (availableLength 100 (1/10)) (availableLength 5 (1/10))) 10 = 0 ∧
    overflowsB (fun s _ => s) (fun s _ => s) ["a".toList, "b".toList]
      (availableLength 100 (1/10)) (availableLength 5 (1/10)) 0 = true := by
  constructor
  · have h1 : overflowsB (fun s _ => s) (fun s _ => s) ["a".toList, "b".toList]
        (availableLength 100 (1/10)) (availableLength 5 (1/10)) 1 = true := by
      simp only [overflowsB, textMeasure, maxLineWidth, maxAux, totalHeight,
        availableLength, List.map_cons, List.map_nil, List.sum_cons, List.sum_nil,
        List.length_cons, List.length_nil]
      norm_num
    obtain ⟨hf1, hf2, hf3, hf4⟩ := fontLoop_spec _ 10 1 1 (le_refl 1) h1 (by omega)
    rw [selectedFontSize, le_antisymm hf3 hf2]
  · simp only [overflowsB, textMeasure, maxLineWidth, maxAux, totalHeight,
      availableLength, List.map_cons, List.map_nil, List.sum_cons, List.sum_nil,
      List.length_cons, List.length_nil]
    norm_num

/-- Claim C1 (amended): for monotone font metrics, a nonempty line list and
a viewport on which some size `b ≥ 1` overflows (so the loop terminates),
the selected size is one step below the first overflowing size: the block
overflows at `selected + 1`, every size the search passed (from 1 up to the
selected size) fits, and every size above the selected size overflows.
When even size 1 overflows, the selected size is 0 and its own block may
overflow (see the counterexample), so "the selected size fits" holds only
from size 1 up. -/
theorem selectedFontSize_maximal_fit (fw fh : Nat → PyStr → Nat)
    (hw : ∀ str s t, s ≤ t → fw s str ≤ fw t str)
    (hh : ∀ str s t, s ≤ t → fh s str ≤ fh t str)
    (strings : List PyStr) (_hne : strings ≠ [])
    (W H : Int) (hp vp : ℚ) (b fuel : Nat) (hb1 : 1 ≤ b)
    (hb : overflowsB fw fh strings (availableLength W hp) (availableLength H vp) b = true)
    (hfuel : b < fuel) :
    let ov := overflowsB fw fh strings (availableLength W hp) (availableLength H vp)
    let sel := selectedFontSize ov fuel
    ov (sel + 1) = true ∧
      (∀ s, 1 ≤ s → s ≤ sel → ov s = false) ∧
      (∀ t, sel < t → ov t = true) := by
  intro ov sel
  obtain ⟨h1, h2, h3, h4⟩ := fontLoop_spec ov fuel 1 b hb1 hb (by omega)
  have hseleq : sel + 1 = fontLoop ov fuel 1 := by
    show selectedFontSize ov fuel + 1 = fontLoop ov fuel 1
    rw [selectedFontSize]
    omega
  refine ⟨?_, ?_, ?_⟩
  · rw [hseleq]
    exact h1
  · intro s hs1 hs2
    exact h4 s hs1 (by omega)
  · intro t ht
    exact overflowsB_mono hw hh strings _ _ (by omega : fontLoop ov fuel 1 ≤ t) h1

/-- Witness for C1 (amended): one line, 30 x 30 viewport, zero padding,
metrics width = height = font size; size 31 overflows within fuel 40. -/
theorem selectedFontSize_maximal_fit_witness :
    let ov := overflowsB (fun s _ => s) (fun s _ => s) ["a".toList]
      (availableLength 30 0) (availableLength 30 0)
    let sel := selectedFontSize ov 40
    ov (sel + 1) = true ∧
      (∀ s, 1 ≤ s → s ≤ sel → ov s = false) ∧
      (∀ t, sel < t → ov t = true) :=
  selectedFontSize_maximal_fit (fun s _ => s) (fun s _ => s)
    (fun _ _ _ h => h) (fun _ _ _ h => h) ["a".toList] (by decide) 30 30 0 0 31 40
    (by decide)
    (by simp only [overflowsB, textMeasure, maxLineWidth, maxAux, totalHeight,
          availableLength, List.map_cons, List.map_nil, List.sum_cons, List.sum_nil,
          List.length_cons, List.length_nil]
        norm_num)
    (by decide)

/-- Shared evaluation: on a 100 x 100 viewport with 0.1 paddings, a 5 x 12
image fits to height, `new_height = 80` and `new_width = int(80 * 5/12) =
int(100/3) = 33`. -/
theorem imageFitSize_eval_example :
    imageFitSize (availableLength 100 (1/10)) (availableLength 100 (1/10))
      (((5:Nat) : ℚ) / ((12:Nat) : ℚ)) = (33, 80) := by
  have haw : availableLength 100 (1/10) = 80 := by norm_num [availableLength]
  rw [haw, imageFitSize, if_pos (by norm_num),
    show pyInt ((80:ℚ) * (((5:Nat):ℚ) / ((12:Nat):ℚ))) = 33 from
      pyInt_eq_of 33 (by norm_num) (by norm_num) (by norm_num)]
  norm_num

/-- Counterexample for C2 as stated: for a 5 x 12 image on a 100 x 100
viewport with 0.1 paddings, the code computes `new_width = 33`, but the
claim's exact formulas give `new_width = new_height * aspect_ratio =
80 * 5/12 = 100/3` and `x = (100 - new_width) / 2`, neither of which
equals the code's truncated values (33 and 33). -/
theorem image_fit_truncation_cex :
    draw_centered_image_with_padding 100 100 (1/10) (1/10) 5 12 =
      ((33, 80), (33, 80), (33, 10)) ∧
    ¬((33 : ℚ) = 80 * (((5:Nat) : ℚ) / ((12:Nat) : ℚ))) ∧
    ¬((33 : ℚ) = ((100 : ℚ) - 33) / 2) := by
  refine ⟨?_, by norm_num, by norm_num⟩
  have haw : availableLength 100 (1/10) = 80 := by norm_num [availableLength]
  have hfit := imageFitSize_eval_example
  simp only [draw_centered_image_with_padding, hfit]
  rw [pyInt_eq_of 33 (by norm_num) (by norm_num) (by norm_num),
    pyInt_eq_of 80 (by norm_num) (by norm_num) (by norm_num)]
  decide

/-- Claim C2 (amended): with positive screen and image dimensions and
padding fractions below one half, when `aw / ah > aspect` the image is fit
to height with `new_height = ah` and `new_width = int(ah * aspect)`
(truncated), otherwise fit to width with `new_width = aw` and `new_height =
int(aw / aspect)`; the scaled surface takes the integer truncations of
these sizes and is centered by floor division: `x = (W - iw) // 2`,
`y = (H - ih) // 2`. -/
theorem draw_centered_image_geometry (W H : Int) (hp vp : ℚ) (ow oh : Nat)
    (_hW : 0 < W) (_hH : 0 < H) (_hhp0 : 0 ≤ hp) (_hhp : hp < 1/2)
    (_hvp0 : 0 ≤ vp) (_hvp : vp < 1/2) (_how : 0 < ow) (_hoh : 0 < oh) :
    ∀ aw ah ar : ℚ, aw = availableLength W hp → ah = availableLength H vp →
      ar = ((ow : ℚ)) / ((oh : ℚ)) →
      (aw / ah > ar →
        draw_centered_image_with_padding W H hp vp ow oh =
          (((pyInt (ah * ar) : ℚ), ah), (pyInt (ah * ar), pyInt ah),
            ((W - pyInt (ah * ar)).fdiv 2, (H - pyInt ah).fdiv 2))) ∧
      (¬(aw / ah > ar) →
        draw_centered_image_with_padding W H hp vp ow oh =
          ((aw, (pyInt (aw / ar) : ℚ)), (pyInt aw, pyInt (aw / ar)),
            ((W - pyInt aw).fdiv 2, (H - pyInt (aw / ar)).fdiv 2))) := by
  intro aw ah ar haw hah har
  subst haw
  subst hah
  subst har
  constructor
  · intro hcond
    have h1 : imageFitSize (availableLength W hp) (availableLength H vp)
        (((ow : ℚ)) / ((oh : ℚ))) =
        (((pyInt ((availableLength H vp) * (((ow : ℚ)) / ((oh : ℚ))))) : ℚ),
          availableLength H vp) := by
      rw [imageFitSize, if_pos hcond]
    simp only [draw_centered_image_with_padding, h1, pyInt_intCast]
  · intro hcond
    have h1 : imageFitSize (availableLength W hp) (availableLength H vp)
        (((ow : ℚ)) / ((oh : ℚ))) =
        (availableLength W hp,
          ((pyInt ((availableLength W hp) / (((ow : ℚ)) / ((oh : ℚ))))) : ℚ)) := by
      rw [imageFitSize, if_neg hcond]
    simp only [draw_centered_image_with_padding, h1, pyInt_intCast]

/-- Witness for C2 (amended) at a 5 x 12 image on a 100 x 100 viewport with
0.1 paddings (the fit-to-height branch, since 80/80 > 5/12). -/
theorem draw_centered_image_geometry_witness :
    draw_centered_image_with_padding 100 100 (1/10) (1/10) 5 12 =
      (((pyInt ((availableLength 100 (1/10)) * (((5:Nat) : ℚ) / ((12:Nat) : ℚ))) : ℚ),
         availableLength 100 (1/10)),
       (pyInt ((availableLength 100 (1/10)) * (((5:Nat) : ℚ) / ((12:Nat) : ℚ))),
         pyInt (availableLength 100 (1/10))),
       ((100 - pyInt ((availableLength 100 (1/10)) * (((5:Nat) : ℚ) / ((12:Nat) : ℚ)))).fdiv 2,
        (100 - pyInt (availableLength 100 (1/10))).fdiv 2)) :=
  (draw_centered_image_geometry 100 100 (1/10) (1/10) 5 12 (by decide) (by decide)
    (by norm_num) (by norm_num) (by norm_num) (by norm_num) (by decide) (by decide)
    _ _ _ rfl rfl rfl).1 (by norm_num [availableLength])

/-- Claim C6: the image fit preserves the aspect ratio up to the integer
truncation of one dimension (the truncated dimension is within one unit of
the exact aspect-matching value, the other is exact), and neither chosen
dimension exceeds the padded available width/height. -/
theorem image_fit_aspect_and_bounds (W H : Int) (hp vp : ℚ) (ow oh : Nat)
    (hW : 0 < W) (hH : 0 < H) (_hhp0 : 0 ≤ hp) (hhp : hp < 1/2)
    (_hvp0 : 0 ≤ vp) (hvp : vp < 1/2) (how : 0 < ow) (hoh : 0 < oh) :
    ∀ nw nh : ℚ,
      (nw, nh) = imageFitSize (availableLength W hp) (availableLength H vp)
        (((ow : ℚ)) / ((oh : ℚ))) →
      nw ≤ availableLength W hp ∧ nh ≤ availableLength H vp ∧
        ((nh * (((ow : ℚ)) / ((oh : ℚ))) - 1 < nw ∧
            nw ≤ nh * (((ow : ℚ)) / ((oh : ℚ)))) ∨
          (nw / (((ow : ℚ)) / ((oh : ℚ))) - 1 < nh ∧
            nh ≤ nw / (((ow : ℚ)) / ((oh : ℚ))))) := by
  intro nw nh hnwh
  have haw := availableLength_pos hW hhp
  have hah := availableLength_pos hH hvp
  have har : (0:ℚ) < ((ow : ℚ)) / ((oh : ℚ)) :=
    div_pos (by exact_mod_cast how) (by exact_mod_cast hoh)
  have hs := imageFitSize_spec _ _ _ haw hah har
  rw [← hnwh] at hs
  simpa using hs

/-- Witness for C6 at a 5 x 12 image on a 100 x 100 viewport with 0.1
paddings: the fit is (33, 80), within bounds and within one unit of the
exact ratio. -/
theorem image_fit_aspect_and_bounds_witness :
    (33:ℚ) ≤ availableLength 100 (1/10) ∧ (80:ℚ) ≤ availableLength 100 (1/10) ∧
      (((80:ℚ) * (((5:Nat) : ℚ) / ((12:Nat) : ℚ)) - 1 < 33 ∧
          (33:ℚ) ≤ 80 * (((5:Nat) : ℚ) / ((12:Nat) : ℚ))) ∨
        ((33:ℚ) / (((5:Nat) : ℚ) / ((12:Nat) : ℚ)) - 1 < 80 ∧
          (80:ℚ) ≤ 33 / (((5:Nat) : ℚ) / ((12:Nat) : ℚ)))) :=
  image_fit_aspect_and_bounds 100 100 (1/10) (1/10) 5 12 (by decide) (by decide)
    (by norm_num) (by norm_num) (by norm_num) (by norm_num) (by decide) (by decide)
    33 80 imageFitSize_eval_example.symm
